import Mathlib

/-!
Shallow embedding of the core of the `notion` toolchain manager:
the version-resolution and caching engine
(`crates/notion-core/src/inventory/mod.rs`) and the npm command
dispatch/interception layer (`crates/volta-core/src/run/npm.rs`).

External collaborators (the network transport, the HTTP-date codec of the
`hyper` crate, the `serde` deserializers, the semver matcher, the
filesystem) are modelled as explicit function parameters; the control flow
of the repository functions is translated statement by statement.
-/

/-! ## Versions and version requirements -/

/-- A semantic version, mirroring `semver::Version` (build/prerelease tags
omitted; no modelled code inspects them). -/
structure Version where
  major : Nat
  minor : Nat
  patch : Nat
deriving DecidableEq

/-- Rendering used by `Version::to_string()` when an exact version is
embedded in an error message. -/
def Version.toText (v : Version) : String :=
  toString v.major ++ "." ++ toString v.minor ++ "." ++ toString v.patch

/-- A semver requirement, mirroring `semver::VersionReq`: an external
matcher together with its textual form (`VersionReq::to_string()`). -/
structure VersionReq where
  test : Version → Bool
  text : String

/-- The `VersionSpec` from `notion-core/src/version.rs`: the four kinds of
version requirement a caller can pass to `resolve`. -/
inductive VersionSpec where
  | latest
  | lts
  | semver (req : VersionReq)
  | exact (v : Version)

/-! ## Errors

One flat error type standing for `ErrorDetails` / `ErrorKind` variants that
the modelled code can produce. `unknown` stands for the catch-all produced
by `notion_fail::ResultExt::unknown()` on external failures (date parsing,
serde deserialization, version parsing). -/

/-- An OS string from the argument vector: either valid UTF-8 or an abstract
non-UTF-8 token (tagged to keep equality decidable). -/
inductive OsStr where
  | utf8 (s : String)
  | nonUtf8 (tag : Nat)
deriving DecidableEq

/-- The `OsString == &str` comparison: a non-UTF-8 token never equals a string
literal. -/
def osStrEq (a : OsStr) (s : String) : Bool :=
  match a with
  | .utf8 t => t == s
  | .nonUtf8 _ => false

inductive Error where
  | nodeVersionNotFound (matching : String)
  | yarnVersionNotFound (matching : String)
  | packageVersionNotFound (name : String) (matching : String)
  | registryFetchError (tool : String) (fromUrl : String)
  | yarnLatestFetchError (fromUrl : String)
  | packageMetadataFetchError (fromUrl : String)
  | noGlobalInstalls (package : Option OsStr)
  | noPlatform
  | unknown
deriving DecidableEq

/-! ## npm command dispatch and interception
(`crates/volta-core/src/run/npm.rs`) -/

/-- The `CommandArg` (from `run/mod.rs`): the verdict of `check_npm_install`. -/
inductive CommandArg where
  | globalAdd (package : Option OsStr)
  | notGlobalAdd
deriving DecidableEq

/-- First scan of `check_npm_install`: `args_os().any(|arg| arg == "-g" ||
arg == "--global")`, over the whole argument vector including the program
name. -/
def hasGlobalFlag (args : List OsStr) : Bool :=
  args.any fun a => osStrEq a "-g" || osStrEq a "--global"

/-- The dash test used by the arg filter (starts_with with a dash
character): whether the first character of the string is a dash. -/
def startsWithDash (t : String) : Bool :=
  match t.data with
  | [] => false
  | c :: _ => c == '-'

/-- The filter predicate of the second scan: keep an argument when
`arg.to_str()` yields a string not starting with a dash, or when the
argument is not valid UTF-8 (`None => true`). -/
def npmArgKeep (a : OsStr) : Bool :=
  match a with
  | .utf8 t => !(startsWithDash t)
  | .nonUtf8 _ => true

/-- The second scan of `check_npm_install`: `args_os().skip(1).filter(...)`
— skip the program name, exclude flag-looking tokens. -/
def npmFilteredArgs (args : List OsStr) : List OsStr :=
  (args.drop 1).filter npmArgKeep

/-- The accepted install-family spellings: `install`, `i`, `isntall`,
`add`. -/
def isInstallCommand (a : OsStr) : Bool :=
  osStrEq a "install" || osStrEq a "i" || osStrEq a "isntall" || osStrEq a "add"

/-- The `check_npm_install`: decide whether the invocation is a global install,
and if so capture the following non-flag token as the package name. -/
def check_npm_install (args : List OsStr) : CommandArg :=
  if !(hasGlobalFlag args) then
    .notGlobalAdd
  else
    match npmFilteredArgs args with
    | [] => .notGlobalAdd
    | cmd :: rest =>
      if isInstallCommand cmd then .globalAdd rest.head? else .notGlobalAdd

/-- The checked-out platform image: `image.path()` and
`image.resolve_npm()` are fallible collaborators, modelled as stored
outcomes. -/
structure Image where
  path : Except Error String
  npmVersion : Except Error Version

/-- A resolved platform; `platform.checkout(session)` is a fallible
collaborator, modelled as a stored outcome. -/
structure Platform where
  checkout : Except Error Image

/-- The dispatch outcome: run the managed binary directly, or hand through
to the system tool carrying a deferred error context. -/
inductive ToolCommand where
  | direct (exe : String) (path : String)
  | passthrough (exe : String) (deferredError : Error)
deriving DecidableEq

/-- The success path of `command` once interception has not fired:
`platform.checkout(session)?`, `image.path()?`,
`debug_tool_message("npm", &image.resolve_npm()?)`, then
`ToolCommand::direct`. -/
def run_managed_npm (p : Platform) : Except Error ToolCommand :=
  match p.checkout with
  | .error e => .error e
  | .ok image =>
    match image.path with
    | .error e => .error e
    | .ok path =>
      match image.npmVersion with
      | .error e => .error e
      | .ok _ => .ok (.direct "npm" path)

/-- The `command` from `run/npm.rs`: resolve the platform first; with a
platform, run the interception check when the policy is enabled; without a
platform, pass through to the system npm with the no-platform context. -/
def npm_command (platform : Except Error (Option Platform))
    (interceptGlobal : Bool) (args : List OsStr) : Except Error ToolCommand :=
  match platform with
  | .error e => .error e
  | .ok (some p) =>
    if interceptGlobal then
      match check_npm_install args with
      | .globalAdd package => .error (.noGlobalInstalls package)
      | .notGlobalAdd => run_managed_npm p
    else run_managed_npm p
  | .ok none => .ok (.passthrough "npm" .noPlatform)

/-- Side condition on a platform: none of its collaborator outcomes is
itself a no-global-installs error (true of the real collaborators, whose
failures are checkout/filesystem errors). -/
def Platform.globalErrFree (p : Platform) : Prop :=
  (∀ pkg, p.checkout ≠ .error (.noGlobalInstalls pkg)) ∧
  ∀ img, p.checkout = .ok img →
    (∀ pkg, img.path ≠ .error (.noGlobalInstalls pkg)) ∧
    (∀ pkg, img.npmVersion ≠ .error (.noGlobalInstalls pkg))

/-! ## Registry URLs (`inventory/mod.rs`, non-mock branch) -/

def public_node_version_index : String := "https://nodejs.org/dist/index.json"

def public_yarn_version_index : String :=
  "https://api.github.com/repos/yarnpkg/yarn/releases"

def public_yarn_latest_version : String := "https://yarnpkg.com/latest-version"

def public_package_registry_root : String := "https://registry.npmjs.org"

/-! ## Hooks

`ToolHooks<D>` carries optional `latest` and `index` hooks; `hook.resolve`
maps a relative path to a URL (its own failure mode is not modelled — no
claim depends on it). -/

structure ToolHooks where
  latest : Option (String → String)
  index : Option (String → String)

/-! ## Node registry index and its cache -/

/-- The set of available files on the Node server for a given version
(modelled as a list; the modelled code never inspects it). -/
structure NodeDistroFiles where
  files : List String

structure NodeEntry where
  version : Version
  npm : Version
  files : NodeDistroFiles
  lts : Bool

/-- The index of the public Node server. `serial::NodeIndex` and its
`into_index` conversion (code not under src/) are collapsed into this one
type, `into_index` taken as the identity; no claim depends on the
serial-to-domain conversion failing. -/
structure NodeIndex where
  entries : List NodeEntry

/-- The two sibling cache files for the Node index, as read by
`read_file_opt` (absent file = `none`; IO errors other than not-found are
not modelled). -/
structure NodeCacheFiles where
  expiryFile : Option String
  indexFile : Option String
deriving DecidableEq

/-- An HTTP response as the cache layer observes it: the body text, the
optional `Expires` header rendered verbatim, and the optional
`Cache-Control: max-age` directive. -/
structure HttpResponse where
  body : String
  expires : Option String
  maxAge : Option Nat

/-- The `max_age`: the max-age directive of the response, defaulting to four
hours. -/
def max_age (response : HttpResponse) : Nat :=
  match response.maxAge with
  | some m => m
  | none => 4 * 60 * 60

/-- The external collaborators of the Node cache layer: the HTTP-date
parser (`HttpDate::from_str`, `none` = parse failure), the serde
deserializer for the cached payload (target type `Option<serial::NodeIndex>`,
outer `none` = deserialization failure), the serde deserializer for a fresh
response body, the HTTP-date renderer, and the network (`none` = transport
failure). Wall-clock instants are naturals. -/
structure NodeEnv where
  parseDate : String → Option Nat
  parseCached : String → Option (Option NodeIndex)
  parseBody : String → Option NodeIndex
  renderDate : Nat → String
  net : String → Option HttpResponse

/-- The `read_cached_opt`: reads the Node index from the cache, if it exists
and has not expired. A malformed expiry string or a malformed cached
payload is surfaced through `.unknown()?` as an error; a missing file or an
expired record yields `Ok(None)`. -/
def read_cached_opt (env : NodeEnv) (fs : NodeCacheFiles) (now : Nat) :
    Except Error (Option NodeIndex) :=
  match fs.expiryFile with
  | none => .ok none
  | some expiryString =>
    match env.parseDate expiryString with
    | none => .error .unknown
    | some expiryDate =>
      if now < expiryDate then
        match fs.indexFile with
        | none => .ok none
        | some cachedString =>
          match env.parseCached cachedString with
          | none => .error .unknown
          | some serialOpt => .ok serialOpt
      else .ok none

/-- The `resolve_node_versions`: return the cached index when the cache read
yields one; otherwise fetch the index from `url`, persist the body and the
computed expiry (preferring the `Expires` header verbatim, else rendering
now + max-age), and parse the body. The returned triple is the outcome, the
final state of the two cache files, and the list of URLs fetched. -/
def resolve_node_versions (env : NodeEnv) (fs : NodeCacheFiles) (now : Nat)
    (url : String) : Except Error NodeIndex × NodeCacheFiles × List String :=
  match read_cached_opt env fs now with
  | .error e => (.error e, fs, [])
  | .ok (some serial) => (.ok serial, fs, [])
  | .ok none =>
    match env.net url with
    | none => (.error (.registryFetchError "Node" url), fs, [url])
    | some response =>
      let expiryString :=
        match response.expires with
        | some header => header
        | none => env.renderDate (now + max_age response)
      let fs1 : NodeCacheFiles :=
        { expiryFile := some expiryString, indexFile := some response.body }
      match env.parseBody response.body with
      | none => (.error .unknown, fs1, [url])
      | some serial => (.ok serial, fs1, [url])

/-- The `match_node_version`: obtain the index (through the cache layer) and
return the version of the first entry satisfying the predicate. -/
def match_node_version (env : NodeEnv) (fs : NodeCacheFiles) (now : Nat)
    (url : String) (p : NodeEntry → Bool) :
    Except Error (Option Version) × NodeCacheFiles × List String :=
  match resolve_node_versions env fs now url with
  | (.error e, fs1, fetched) => (.error e, fs1, fetched)
  | (.ok index, fs1, fetched) =>
    (.ok ((index.entries.find? p).map NodeEntry.version), fs1, fetched)

/-- URL chosen by `NodeCollection::resolve_latest`: the `latest` hook at
`index.json`, else the public Node index. -/
def node_latest_url (hooks : Option ToolHooks) : String :=
  match hooks with
  | some h =>
    match h.latest with
    | some hook => hook "index.json"
    | none => public_node_version_index
  | none => public_node_version_index

/-- URL chosen by `NodeCollection::resolve_semver` and `resolve_lts`: the
`index` hook at `index.json`, else the public Node index. -/
def node_index_url (hooks : Option ToolHooks) : String :=
  match hooks with
  | some h =>
    match h.index with
    | some hook => hook "index.json"
    | none => public_node_version_index
  | none => public_node_version_index

/-- The `NodeCollection::resolve_latest`: first entry of the index,
unconditionally (`|_| true`). -/
def node_resolve_latest (env : NodeEnv) (fs : NodeCacheFiles) (now : Nat)
    (hooks : Option ToolHooks) :
    Except Error Version × NodeCacheFiles × List String :=
  match match_node_version env fs now (node_latest_url hooks) (fun _ => true) with
  | (.error e, fs1, fetched) => (.error e, fs1, fetched)
  | (.ok (some version), fs1, fetched) => (.ok version, fs1, fetched)
  | (.ok none, fs1, fetched) =>
    (.error (.nodeVersionNotFound "latest"), fs1, fetched)

/-- The `NodeCollection::resolve_semver`: first entry whose version satisfies
the requirement. -/
def node_resolve_semver (env : NodeEnv) (fs : NodeCacheFiles) (now : Nat)
    (matching : VersionReq) (hooks : Option ToolHooks) :
    Except Error Version × NodeCacheFiles × List String :=
  match match_node_version env fs now (node_index_url hooks)
      (fun e => matching.test e.version) with
  | (.error e, fs1, fetched) => (.error e, fs1, fetched)
  | (.ok (some version), fs1, fetched) => (.ok version, fs1, fetched)
  | (.ok none, fs1, fetched) =>
    (.error (.nodeVersionNotFound matching.text), fs1, fetched)

/-- The `NodeCollection::resolve_lts`: first entry whose LTS flag is set. -/
def node_resolve_lts (env : NodeEnv) (fs : NodeCacheFiles) (now : Nat)
    (hooks : Option ToolHooks) :
    Except Error Version × NodeCacheFiles × List String :=
  match match_node_version env fs now (node_index_url hooks)
      (fun e => e.lts) with
  | (.error e, fs1, fetched) => (.error e, fs1, fetched)
  | (.ok (some version), fs1, fetched) => (.ok version, fs1, fetched)
  | (.ok none, fs1, fetched) =>
    (.error (.nodeVersionNotFound "lts"), fs1, fetched)

/-- The `NodeCollection::resolve_exact`: `Ok(version)` — the cache files are
untouched, no URL is fetched, the hooks argument is unused. -/
def node_resolve_exact (version : Version) (_hooks : Option ToolHooks)
    (fs : NodeCacheFiles) :
    Except Error Version × NodeCacheFiles × List String :=
  (.ok version, fs, [])

/-- The `FetchResolve::resolve` dispatch for Node (the final `D::new`
construction is an external collaborator and not modelled). -/
def node_resolve (env : NodeEnv) (fs : NodeCacheFiles) (now : Nat)
    (matching : VersionSpec) (hooks : Option ToolHooks) :
    Except Error Version × NodeCacheFiles × List String :=
  match matching with
  | .latest => node_resolve_latest env fs now hooks
  | .lts => node_resolve_lts env fs now hooks
  | .semver req => node_resolve_semver env fs now req hooks
  | .exact v => node_resolve_exact v hooks fs

/-! ## Yarn resolvers -/

/-- External collaborators of the Yarn resolvers: the latest-version
endpoint transport returning the plain-text body, `Version::parse`, and the
releases-index transport returning the parsed release set. The release set
(`YarnIndex.entries`, a `BTreeSet<Version>`) is modelled as the list of
versions in its iteration order; the serial-to-domain conversion
(`into_index`, code not under src/) is absorbed into the transport, whose
`none` collapses both transport and deserialization failure. -/
structure YarnEnv where
  netText : String → Option String
  parseVersion : String → Option Version
  netIndex : String → Option (List Version)

/-- URL chosen by `YarnCollection::resolve_latest`: the `latest` hook at
`latest-version`, else the public yarnpkg.com endpoint. -/
def yarn_latest_url (hooks : Option ToolHooks) : String :=
  match hooks with
  | some h =>
    match h.latest with
    | some hook => hook "latest-version"
    | none => public_yarn_latest_version
  | none => public_yarn_latest_version

/-- URL chosen by `YarnCollection::resolve_semver`: the `index` hook at
`releases`, else the public releases index. -/
def yarn_index_url (hooks : Option ToolHooks) : String :=
  match hooks with
  | some h =>
    match h.index with
    | some hook => hook "releases"
    | none => public_yarn_version_index
  | none => public_yarn_version_index

/-- The `YarnCollection::resolve_latest`: GET the latest-version endpoint and
parse its body with `Version::parse` (parse failure surfaces through
`.unknown()`). -/
def yarn_resolve_latest (env : YarnEnv) (hooks : Option ToolHooks) :
    Except Error Version × List String :=
  let url := yarn_latest_url hooks
  match env.netText url with
  | none => (.error (.yarnLatestFetchError url), [url])
  | some body =>
    match env.parseVersion body with
    | none => (.error .unknown, [url])
    | some version => (.ok version, [url])

/-- The `YarnCollection::resolve_semver`: fetch the releases index, reverse its
iteration order, and take the first match; a typed not-found error carries
the textual requirement. -/
def yarn_resolve_semver (env : YarnEnv) (matching : VersionReq)
    (hooks : Option ToolHooks) : Except Error Version × List String :=
  let url := yarn_index_url hooks
  match env.netIndex url with
  | none => (.error (.registryFetchError "Yarn" url), [url])
  | some releases =>
    match releases.reverse.find? matching.test with
    | some version => (.ok version, [url])
    | none => (.error (.yarnVersionNotFound matching.text), [url])

/-- The `YarnCollection::resolve_exact`: `Ok(version)` — no URL fetched, hooks
unused. -/
def yarn_resolve_exact (version : Version) (_hooks : Option ToolHooks) :
    Except Error Version × List String :=
  (.ok version, [])

/-- The `FetchResolve::resolve` dispatch for Yarn; `Lts` uses the trait
default, which aliases `resolve_latest`. -/
def yarn_resolve (env : YarnEnv) (matching : VersionSpec)
    (hooks : Option ToolHooks) : Except Error Version × List String :=
  match matching with
  | .latest => yarn_resolve_latest env hooks
  | .lts => yarn_resolve_latest env hooks
  | .semver req => yarn_resolve_semver env req hooks
  | .exact v => yarn_resolve_exact v hooks

/-! ## Package resolvers -/

/-- A per-version entry of the package metadata (the full `PackageEntry` of
`distro/package.rs` also carries a tarball URL; no modelled code inspects
it). -/
structure PackageEntry where
  version : Version
deriving DecidableEq

/-- Modelled from the spec: the parsed per-package metadata endpoint
response — "JSON with a latest marker and per-version entries"
(`serial::PackageMetadata::into_index`, code not under src/). -/
structure PackageIndex where
  latest : Version
  entries : List PackageEntry
deriving DecidableEq

/-- The package metadata transport: `resolve_package_metadata` composed
with `into_index`; `none` collapses transport and deserialization failure
into the metadata-fetch error. -/
structure PackageEnv where
  net : String → Option PackageIndex

/-- The `match_package_entry`: first entry of the index satisfying the
predicate. -/
def match_package_entry (index : PackageIndex)
    (predicate : PackageEntry → Bool) : Option PackageEntry :=
  index.entries.find? predicate

/-- URL chosen by `PackageCollection::resolve_latest`: the `latest` hook at
the package name, else the public registry root joined with the name. -/
def package_latest_url (hooks : Option ToolHooks) (name : String) : String :=
  match hooks with
  | some h =>
    match h.latest with
    | some hook => hook name
    | none => public_package_registry_root ++ "/" ++ name
  | none => public_package_registry_root ++ "/" ++ name

/-- URL chosen by `PackageCollection::resolve_semver` and `resolve_exact`:
the `index` hook at the package name, else the public registry root joined
with the name. -/
def package_index_url (hooks : Option ToolHooks) (name : String) : String :=
  match hooks with
  | some h =>
    match h.index with
    | some hook => hook name
    | none => public_package_registry_root ++ "/" ++ name
  | none => public_package_registry_root ++ "/" ++ name

/-- The `PackageCollection::resolve_latest`: fetch the metadata and select the
first entry whose version equals the latest marker. -/
def package_resolve_latest (env : PackageEnv) (name : String)
    (hooks : Option ToolHooks) : Except Error PackageEntry × List String :=
  let url := package_latest_url hooks name
  match env.net url with
  | none => (.error (.packageMetadataFetchError url), [url])
  | some index =>
    match match_package_entry index (fun e => e.version == index.latest) with
    | some entry => (.ok entry, [url])
    | none => (.error (.packageVersionNotFound name "latest"), [url])

/-- The `PackageCollection::resolve_semver`: fetch the metadata and select the
first entry whose version satisfies the requirement. -/
def package_resolve_semver (env : PackageEnv) (name : String)
    (matching : VersionReq) (hooks : Option ToolHooks) :
    Except Error PackageEntry × List String :=
  let url := package_index_url hooks name
  match env.net url with
  | none => (.error (.packageMetadataFetchError url), [url])
  | some index =>
    match match_package_entry index (fun e => matching.test e.version) with
    | some entry => (.ok entry, [url])
    | none => (.error (.packageVersionNotFound name matching.text), [url])

/-- The `PackageCollection::resolve_exact`: fetch the metadata (through the
`index` hook when present) and select the first entry whose version equals
the requested one. -/
def package_resolve_exact (env : PackageEnv) (name : String)
    (exactVersion : Version) (hooks : Option ToolHooks) :
    Except Error PackageEntry × List String :=
  let url := package_index_url hooks name
  match env.net url with
  | none => (.error (.packageMetadataFetchError url), [url])
  | some index =>
    match match_package_entry index (fun e => e.version == exactVersion) with
    | some entry => (.ok entry, [url])
    | none =>
      (.error (.packageVersionNotFound name exactVersion.toText), [url])

/-- The `FetchResolve::resolve` dispatch for packages; `Lts` uses the trait
default, which aliases `resolve_latest`. -/
def package_resolve (env : PackageEnv) (name : String)
    (matching : VersionSpec) (hooks : Option ToolHooks) :
    Except Error PackageEntry × List String :=
  match matching with
  | .latest => package_resolve_latest env name hooks
  | .lts => package_resolve_latest env name hooks
  | .semver req => package_resolve_semver env name req hooks
  | .exact v => package_resolve_exact env name v hooks

/-! ## Collection fetch (`Collection::fetch` per tool kind) -/

/-- The `Fetched<T>`: whether the version was freshly installed or already
present. -/
inductive Fetched (α : Type) where
  | now (value : α)
  | already (value : α)
deriving DecidableEq

/-- The `NodeVersion`: the resolved Node runtime version together with its
companion npm version. -/
structure NodeVersion where
  runtime : Version
  npm : Version
deriving DecidableEq

/-- The `PackageVersion` (from `distro/package.rs`, fields beyond the name and
version are not inspected by the modelled code). -/
structure PackageVersion where
  name : String
  version : Version
deriving DecidableEq

/-- A distro handle produced by `D::new` from the resolved version; its
contents are irrelevant to `Collection::fetch`. -/
structure DistroHandle (α : Type) where
  resolved : α

/-- The `NodeCollection::fetch`: resolve first, delegate to the distro fetch,
insert the runtime version on `Fetched::Now`, and return the `Fetched`
value unchanged. The collection is its `versions` set (`BTreeSet<Version>`
modelled as a `Finset`); `resolveResult` is the outcome of
`self.resolve(name, matching, hooks)` and `distroFetch` the collaborator
`distro.fetch(&self)`. -/
def node_collection_fetch (versions : Finset Version)
    (resolveResult : Except Error (DistroHandle NodeVersion))
    (distroFetch : DistroHandle NodeVersion → Finset Version →
      Except Error (Fetched NodeVersion)) :
    Except Error (Fetched NodeVersion) × Finset Version :=
  match resolveResult with
  | .error e => (.error e, versions)
  | .ok distro =>
    match distroFetch distro versions with
    | .error e => (.error e, versions)
    | .ok (.now value) => (.ok (.now value), insert value.runtime versions)
    | .ok (.already value) => (.ok (.already value), versions)

/-- The `YarnCollection::fetch`: same shape, inserting the version itself on
`Fetched::Now`. -/
def yarn_collection_fetch (versions : Finset Version)
    (resolveResult : Except Error (DistroHandle Version))
    (distroFetch : DistroHandle Version → Finset Version →
      Except Error (Fetched Version)) :
    Except Error (Fetched Version) × Finset Version :=
  match resolveResult with
  | .error e => (.error e, versions)
  | .ok distro =>
    match distroFetch distro versions with
    | .error e => (.error e, versions)
    | .ok (.now value) => (.ok (.now value), insert value versions)
    | .ok (.already value) => (.ok (.already value), versions)

/-- The `PackageCollection::fetch`: same shape, inserting the package version
field on `Fetched::Now`. -/
def package_collection_fetch (versions : Finset Version)
    (resolveResult : Except Error (DistroHandle PackageVersion))
    (distroFetch : DistroHandle PackageVersion → Finset Version →
      Except Error (Fetched PackageVersion)) :
    Except Error (Fetched PackageVersion) × Finset Version :=
  match resolveResult with
  | .error e => (.error e, versions)
  | .ok distro =>
    match distroFetch distro versions with
    | .error e => (.error e, versions)
    | .ok (.now value) => (.ok (.now value), insert value.version versions)
    | .ok (.already value) => (.ok (.already value), versions)

/-! ## Helper lemmas on list scanning -/

theorem list_find?_eq_filter_head? {α : Type} (p : α → Bool) (l : List α) :
    l.find? p = (l.filter p).head? := by
  induction l with
  | nil => rfl
  | cons a t ih =>
    cases h : p a with
    | true => rw [List.find?_cons_of_pos _ h, List.filter_cons, if_pos h]; rfl
    | false =>
      rw [List.find?_cons_of_neg _ (by simp [h]), List.filter_cons, if_neg (by simp [h])]
      exact ih

theorem option_or_some_eq_getLast?_cons {α : Type} (xs : List α) (a : α) :
    xs.getLast?.or (some a) = (a :: xs).getLast? := by
  cases xs with
  | nil => rfl
  | cons c u =>
    rw [List.getLast?_cons_cons]
    cases hf : (c :: u).getLast? with
    | none => exact absurd (List.getLast?_eq_none_iff.mp hf) (by simp)
    | some b => rfl

theorem list_reverse_find?_eq_filter_getLast? {α : Type} (p : α → Bool)
    (l : List α) : l.reverse.find? p = (l.filter p).getLast? := by
  induction l with
  | nil => rfl
  | cons a t ih =>
    cases h : p a with
    | true =>
      rw [List.reverse_cons, List.find?_append, ih, List.filter_cons, if_pos h,
        List.find?_cons_of_pos _ h]
      exact option_or_some_eq_getLast?_cons (t.filter p) a
    | false =>
      rw [List.reverse_cons, List.find?_append, ih, List.filter_cons,
        if_neg (by simp [h]), List.find?_cons_of_neg _ (by simp [h])]
      exact Option.or_none

/-! ## Dispatch-layer claims -/

/-- C9: for every argument vector, when no managed platform resolves the
dispatch outcome is passthrough-to-system decorated with the no-platform
context, and a no-global-installs error is never produced; the interception
check runs only after a platform has been resolved (a platform-resolution
error propagates untouched). -/
theorem c9_no_platform_passthrough (interceptGlobal : Bool)
    (args : List OsStr) :
    npm_command (.ok none) interceptGlobal args =
      .ok (.passthrough "npm" .noPlatform) ∧
    (∀ pkg, npm_command (.ok none) interceptGlobal args ≠
      .error (.noGlobalInstalls pkg)) ∧
    (∀ e, npm_command (.error e) interceptGlobal args = .error e) := by
  refine ⟨rfl, ?_, fun e => rfl⟩
  intro pkg h
  exact Except.noConfusion h

/-- C10: a non-UTF-8 token is never excluded as a flag by the interception
re-scan; in the subcommand position it never matches an install-family
spelling, so the invocation is not intercepted; immediately following an
install-family subcommand it is returned as the intercepted package
name. -/
theorem c10_non_utf8_interception_tokens (args : List OsStr) (k : Nat) :
    npmArgKeep (.nonUtf8 k) = true ∧
    ((npmFilteredArgs args).head? = some (.nonUtf8 k) →
      check_npm_install args = .notGlobalAdd) ∧
    (∀ cmd rest, hasGlobalFlag args = true →
      npmFilteredArgs args = cmd :: .nonUtf8 k :: rest →
      isInstallCommand cmd = true →
      check_npm_install args = .globalAdd (some (.nonUtf8 k))) := by
  refine ⟨rfl, ?_, ?_⟩
  · intro hhead
    unfold check_npm_install
    cases hg : hasGlobalFlag args with
    | false => rfl
    | true =>
      cases hf : npmFilteredArgs args with
      | nil => rfl
      | cons c r =>
        rw [hf] at hhead
        have hc : c = .nonUtf8 k := by
          simpa using hhead
        subst hc
        rfl
  · intro cmd rest hg hf hc
    unfold check_npm_install
    rw [hg, hf]
    simp [hc]

/-- Witness for C10 at a concrete argument vector. -/
theorem c10_witness :
    check_npm_install
      [OsStr.utf8 "npm", OsStr.utf8 "-g", OsStr.utf8 "install",
        OsStr.nonUtf8 0] = CommandArg.globalAdd (some (OsStr.nonUtf8 0)) :=
  (c10_non_utf8_interception_tokens
      [OsStr.utf8 "npm", OsStr.utf8 "-g", OsStr.utf8 "install",
        OsStr.nonUtf8 0] 0).2.2
    (OsStr.utf8 "install") [] (by decide) (by decide) (by decide)

theorem check_npm_install_globalAdd_iff (args : List OsStr)
    (pkg : Option OsStr) :
    check_npm_install args = .globalAdd pkg ↔
      hasGlobalFlag args = true ∧
      (∃ cmd, (npmFilteredArgs args).head? = some cmd ∧
        isInstallCommand cmd = true) ∧
      pkg = (npmFilteredArgs args).tail.head? := by
  unfold check_npm_install
  cases hg : hasGlobalFlag args with
  | false => simp
  | true =>
    cases hf : npmFilteredArgs args with
    | nil => simp
    | cons c r =>
      cases hc : isInstallCommand c with
      | false => simp [hc]
      | true =>
        simp only [Bool.not_true, Bool.false_eq_true, if_false, if_pos hc,
          List.head?_cons, List.tail_cons, Option.some.injEq,
          CommandArg.globalAdd.injEq, true_and]
        constructor
        · intro h
          exact ⟨⟨c, rfl, hc⟩, h.symm⟩
        · rintro ⟨-, hpkg⟩
          exact hpkg.symm

theorem run_managed_npm_not_global_error (p : Platform)
    (hp : p.globalErrFree) (pkg : Option OsStr) :
    run_managed_npm p ≠ .error (.noGlobalInstalls pkg) := by
  intro h
  unfold run_managed_npm at h
  split at h
  next e heq =>
    injection h with h2
    exact hp.1 pkg (by rw [heq, h2])
  next img heq =>
    have himg := hp.2 img heq
    split at h
    next e2 heq2 =>
      injection h with h2
      exact himg.1 pkg (by rw [heq2, h2])
    next path heq2 =>
      split at h
      next e3 heq3 =>
        injection h with h2
        exact himg.2 pkg (by rw [heq3, h2])
      next v heq3 => exact Except.noConfusion h

/-- C4: with a resolved platform, the npm invocation is intercepted with a
no-global-installs error exactly when interception is enabled, a global
flag token occurs somewhere in the arguments, and the first non-flag token
after the program name is an install-family spelling; the reported package
name is then the next non-flag token, which may be absent. The side
condition states that the managed-execution collaborators never themselves
fail with a no-global-installs error. -/
theorem c4_npm_interception_iff (p : Platform) (interceptGlobal : Bool)
    (args : List OsStr) (hp : p.globalErrFree) :
    ((∃ pkg, npm_command (.ok (some p)) interceptGlobal args =
        .error (.noGlobalInstalls pkg)) ↔
      (interceptGlobal = true ∧ hasGlobalFlag args = true ∧
        ∃ cmd, (npmFilteredArgs args).head? = some cmd ∧
          isInstallCommand cmd = true)) ∧
    (∀ pkg, npm_command (.ok (some p)) interceptGlobal args =
        .error (.noGlobalInstalls pkg) →
      pkg = (npmFilteredArgs args).tail.head?) := by
  have hrun := run_managed_npm_not_global_error p hp
  have hred : ∀ pkg, npm_command (.ok (some p)) interceptGlobal args =
      .error (.noGlobalInstalls pkg) →
      ∃ pk, check_npm_install args = .globalAdd pk ∧
        pkg = pk ∧ interceptGlobal = true := by
    intro pkg h
    have h2 : (if interceptGlobal then
        match check_npm_install args with
        | CommandArg.globalAdd package =>
          Except.error (Error.noGlobalInstalls package)
        | CommandArg.notGlobalAdd => run_managed_npm p
      else run_managed_npm p) = .error (.noGlobalInstalls pkg) := h
    split at h2
    next hi =>
      split at h2
      next pk heq =>
        injection h2 with h3
        cases h3
        exact ⟨pkg, heq, rfl, hi⟩
      next heq => exact absurd h2 (hrun pkg)
    next hi => exact absurd h2 (hrun pkg)
  constructor
  · constructor
    · rintro ⟨pkg, h⟩
      obtain ⟨pk, hchk, -, hi⟩ := hred pkg h
      have hiff := (check_npm_install_globalAdd_iff args pk).mp hchk
      exact ⟨hi, hiff.1, hiff.2.1⟩
    · rintro ⟨hi, hg, cmd, hcmd, hinst⟩
      subst hi
      have hchk : check_npm_install args =
          .globalAdd ((npmFilteredArgs args).tail.head?) :=
        (check_npm_install_globalAdd_iff args _).mpr
          ⟨hg, ⟨cmd, hcmd, hinst⟩, rfl⟩
      refine ⟨(npmFilteredArgs args).tail.head?, ?_⟩
      show (if true = true then
          match check_npm_install args with
          | CommandArg.globalAdd package =>
            Except.error (Error.noGlobalInstalls package)
          | CommandArg.notGlobalAdd => run_managed_npm p
        else run_managed_npm p) = _
      rw [if_pos rfl, hchk]
  · intro pkg h
    obtain ⟨pk, hchk, hpkg, -⟩ := hred pkg h
    subst hpkg
    exact ((check_npm_install_globalAdd_iff args pkg).mp hchk).2.2

/-- Witness for C4: a concrete global install is intercepted even with the
flag after the subcommand. -/
theorem c4_witness :
    ∃ pkg, npm_command
        (.ok (some (Platform.mk (.ok (Image.mk (.ok "/managed/bin")
          (.ok (Version.mk 6 4 1))))))) true
        [OsStr.utf8 "npm", OsStr.utf8 "install", OsStr.utf8 "-g",
          OsStr.utf8 "left-pad"] =
      .error (.noGlobalInstalls pkg) :=
  ((c4_npm_interception_iff
      (Platform.mk (.ok (Image.mk (.ok "/managed/bin")
        (.ok (Version.mk 6 4 1))))) true
      [OsStr.utf8 "npm", OsStr.utf8 "install", OsStr.utf8 "-g",
        OsStr.utf8 "left-pad"]
      (by
        refine ⟨fun pkg h => Except.noConfusion h, fun img himg => ?_⟩
        injection himg with h2
        subst h2
        exact ⟨fun pkg h => Except.noConfusion h,
          fun pkg h => Except.noConfusion h⟩)).1).mpr
    ⟨rfl, by decide, ⟨OsStr.utf8 "install", by decide, by decide⟩⟩

/-! ## Cache-layer claims -/

/-- C5: a cached record is valid only when now is strictly before the
parsed expiry; at exactly the expiry instant the read yields a miss and
resolution performs the live fetch. -/
theorem c5_cache_expiry_strict (env : NodeEnv) (fs : NodeCacheFiles)
    (url : String) :
    (∀ now idx, read_cached_opt env fs now = .ok (some idx) →
      ∃ s e, fs.expiryFile = some s ∧ env.parseDate s = some e ∧ now < e) ∧
    (∀ s e, fs.expiryFile = some s → env.parseDate s = some e →
      read_cached_opt env fs e = .ok none ∧
      (resolve_node_versions env fs e url).2.2 = [url]) := by
  constructor
  · intro now idx h
    unfold read_cached_opt at h
    split at h
    next hnone =>
      injection h with h2
      exact Option.noConfusion h2
    next s hs =>
      split at h
      next hpd => exact Except.noConfusion h
      next e hpd =>
        split at h
        next hlt =>
          split at h
          next hif =>
            injection h with h2
            exact Option.noConfusion h2
          next c hif =>
            split at h
            next hpc => exact Except.noConfusion h
            next so hpc => exact ⟨s, e, hs, hpd, hlt⟩
        next hge =>
          injection h with h2
          exact Option.noConfusion h2
  · intro s e hs hpd
    have hmiss : read_cached_opt env fs e = .ok none := by
      unfold read_cached_opt
      rw [hs]
      dsimp only
      rw [hpd]
      dsimp only
      rw [if_neg (lt_irrefl e)]
    refine ⟨hmiss, ?_⟩
    unfold resolve_node_versions
    rw [hmiss]
    dsimp only
    split
    · rfl
    · split <;> rfl

/-- Witness for C5 at a concrete cache state and expiry instant. -/
theorem c5_witness :
    read_cached_opt
        ⟨fun _ => some 50, fun _ => some (some ⟨[]⟩), fun _ => none,
          fun _ => "", fun _ => none⟩
        ⟨some "expiry-date", some "payload"⟩ 50 = .ok none :=
  ((c5_cache_expiry_strict
      ⟨fun _ => some 50, fun _ => some (some ⟨[]⟩), fun _ => none,
        fun _ => "", fun _ => none⟩
      ⟨some "expiry-date", some "payload"⟩
      "https://nodejs.org/dist/index.json").2 "expiry-date" 50 rfl rfl).1

/-- C2 counterexample: a present-but-malformed expiry string, and a
present-but-malformed payload under a valid expiry, each make the cache
read fail with an error that is returned to the caller; no live fetch is
attempted (the fetch trace is empty). -/
theorem c2_counterexample :
    resolve_node_versions
        ⟨fun _ => none, fun _ => none, fun _ => none, fun _ => "",
          fun _ => none⟩
        ⟨some "not-an-http-date", some "payload"⟩ 0
        "https://nodejs.org/dist/index.json" =
      (.error .unknown, ⟨some "not-an-http-date", some "payload"⟩, []) ∧
    resolve_node_versions
        ⟨fun _ => some 10, fun _ => none, fun _ => none, fun _ => "",
          fun _ => none⟩
        ⟨some "expiry-date", some "corrupt-payload"⟩ 0
        "https://nodejs.org/dist/index.json" =
      (.error .unknown, ⟨some "expiry-date", some "corrupt-payload"⟩, []) :=
  ⟨rfl, rfl⟩

/-- C2 (amended): a missing expiry file, a missing payload file, or an
expired record is a cache miss that falls back to the live fetch; but a
present-but-malformed expiry string or payload fails the cache read and
the failure is returned to the caller without any live fetch. -/
theorem c2_cache_read_failures (env : NodeEnv) (fs : NodeCacheFiles)
    (now : Nat) (url : String) :
    (∀ s, fs.expiryFile = some s → env.parseDate s = none →
      resolve_node_versions env fs now url = (.error .unknown, fs, [])) ∧
    (∀ s e c, fs.expiryFile = some s → env.parseDate s = some e →
      now < e → fs.indexFile = some c → env.parseCached c = none →
      resolve_node_versions env fs now url = (.error .unknown, fs, [])) ∧
    (fs.expiryFile = none →
      (resolve_node_versions env fs now url).2.2 = [url]) ∧
    (∀ s e, fs.expiryFile = some s → env.parseDate s = some e → now < e →
      fs.indexFile = none →
      (resolve_node_versions env fs now url).2.2 = [url]) := by
  have hfetch : read_cached_opt env fs now = .ok none →
      (resolve_node_versions env fs now url).2.2 = [url] := by
    intro hmiss
    unfold resolve_node_versions
    rw [hmiss]
    dsimp only
    split
    · rfl
    · split <;> rfl
  refine ⟨?_, ?_, ?_, ?_⟩
  · intro s hs hpd
    have herr : read_cached_opt env fs now = .error .unknown := by
      unfold read_cached_opt
      rw [hs]
      dsimp only
      rw [hpd]
    unfold resolve_node_versions
    rw [herr]
  · intro s e c hs hpd hlt hif hpc
    have herr : read_cached_opt env fs now = .error .unknown := by
      unfold read_cached_opt
      rw [hs]
      dsimp only
      rw [hpd]
      dsimp only
      rw [if_pos hlt, hif]
      dsimp only
      rw [hpc]
    unfold resolve_node_versions
    rw [herr]
  · intro hs
    refine hfetch ?_
    unfold read_cached_opt
    rw [hs]
  · intro s e hs hpd hlt hif
    refine hfetch ?_
    unfold read_cached_opt
    rw [hs]
    dsimp only
    rw [hpd]
    dsimp only
    rw [if_pos hlt, hif]

/-- Witness for C2 (amended): a missing expiry file forces the live
fetch. -/
theorem c2_witness :
    (resolve_node_versions
        ⟨fun _ => none, fun _ => none, fun _ => none, fun _ => "",
          fun _ => none⟩
        ⟨none, some "payload"⟩ 0
        "https://nodejs.org/dist/index.json").2.2 =
      ["https://nodejs.org/dist/index.json"] :=
  (c2_cache_read_failures
      ⟨fun _ => none, fun _ => none, fun _ => none, fun _ => "",
        fun _ => none⟩
      ⟨none, some "payload"⟩ 0
      "https://nodejs.org/dist/index.json").2.2.1 rfl

/-! ## Resolver-selection claims -/

/-- C6: Node semver resolution returns the version of the first index
entry (in scan order) satisfying the requirement, or a typed not-found
error carrying the textual form of the requirement. -/
theorem c6_node_semver_first_match (env : NodeEnv) (fs : NodeCacheFiles)
    (now : Nat) (matching : VersionReq) (hooks : Option ToolHooks)
    (idx : NodeIndex) (fs1 : NodeCacheFiles) (fetched : List String)
    (h : resolve_node_versions env fs now (node_index_url hooks) =
      (.ok idx, fs1, fetched)) :
    node_resolve_semver env fs now matching hooks =
      ((match idx.entries.find? (fun e => matching.test e.version) with
        | some entry => .ok entry.version
        | none => .error (.nodeVersionNotFound matching.text)),
        fs1, fetched) ∧
    idx.entries.find? (fun e => matching.test e.version) =
      (idx.entries.filter (fun e => matching.test e.version)).head? := by
  refine ⟨?_, list_find?_eq_filter_head? _ _⟩
  unfold node_resolve_semver match_node_version
  rw [h]
  dsimp only
  cases hf : idx.entries.find? (fun e => matching.test e.version) with
  | none => rfl
  | some entry => rfl

/-- Witness for C6 at a concrete cached index. -/
theorem c6_witness :
    node_resolve_semver
        ⟨fun _ => some 100,
          fun _ => some (some ⟨[⟨⟨20, 0, 0⟩, ⟨9, 0, 0⟩, ⟨[]⟩, false⟩,
            ⟨⟨18, 19, 0⟩, ⟨9, 0, 0⟩, ⟨[]⟩, true⟩]⟩),
          fun _ => none, fun _ => "", fun _ => none⟩
        ⟨some "expiry-date", some "cached-body"⟩ 0
        ⟨fun v => v.major == 18, "18"⟩ none =
      (.ok (Version.mk 18 19 0), ⟨some "expiry-date", some "cached-body"⟩,
        []) := by
  rw [(c6_node_semver_first_match
      ⟨fun _ => some 100,
        fun _ => some (some ⟨[⟨⟨20, 0, 0⟩, ⟨9, 0, 0⟩, ⟨[]⟩, false⟩,
          ⟨⟨18, 19, 0⟩, ⟨9, 0, 0⟩, ⟨[]⟩, true⟩]⟩),
        fun _ => none, fun _ => "", fun _ => none⟩
      ⟨some "expiry-date", some "cached-body"⟩ 0
      ⟨fun v => v.major == 18, "18"⟩ none
      ⟨[⟨⟨20, 0, 0⟩, ⟨9, 0, 0⟩, ⟨[]⟩, false⟩,
        ⟨⟨18, 19, 0⟩, ⟨9, 0, 0⟩, ⟨[]⟩, true⟩]⟩
      ⟨some "expiry-date", some "cached-body"⟩ [] rfl).1]
  rfl

/-- C7: Yarn semver resolution reverses the release list before scanning
and returns the first match in that reversed order — equivalently, the
last matching entry of the original order — or a typed not-found error
carrying the textual form of the requirement. -/
theorem c7_yarn_semver_reversed_scan (env : YarnEnv) (matching : VersionReq)
    (hooks : Option ToolHooks) (releases : List Version)
    (h : env.netIndex (yarn_index_url hooks) = some releases) :
    yarn_resolve_semver env matching hooks =
      ((match releases.reverse.find? matching.test with
        | some version => .ok version
        | none => .error (.yarnVersionNotFound matching.text)),
        [yarn_index_url hooks]) ∧
    releases.reverse.find? matching.test =
      (releases.filter matching.test).getLast? := by
  refine ⟨?_, list_reverse_find?_eq_filter_getLast? _ _⟩
  unfold yarn_resolve_semver
  dsimp only
  rw [h]
  dsimp only
  cases hf : releases.reverse.find? matching.test with
  | none => rfl
  | some version => rfl

/-- Witness for C7: with two matching releases, the later entry of the
original order is selected. -/
theorem c7_witness :
    yarn_resolve_semver
        ⟨fun _ => none, fun _ => none,
          fun _ => some [⟨1, 0, 0⟩, ⟨1, 2, 3⟩]⟩
        ⟨fun v => v.major == 1, "1"⟩ none =
      (.ok (Version.mk 1 2 3),
        ["https://api.github.com/repos/yarnpkg/yarn/releases"]) := by
  rw [(c7_yarn_semver_reversed_scan
      ⟨fun _ => none, fun _ => none,
        fun _ => some [⟨1, 0, 0⟩, ⟨1, 2, 3⟩]⟩
      ⟨fun v => v.major == 1, "1"⟩ none [⟨1, 0, 0⟩, ⟨1, 2, 3⟩] rfl).1]
  rfl

/-- C3 counterexample: for packages, `resolve(Latest)` selects the entry
named by the latest marker of the metadata, not the first entry of the
list. -/
theorem c3_counterexample :
    (package_resolve_latest
        ⟨fun _ => some ⟨⟨1, 0, 0⟩, [⟨⟨2, 0, 0⟩⟩, ⟨⟨1, 0, 0⟩⟩]⟩⟩
        "left-pad" none).1 = .ok ⟨⟨1, 0, 0⟩⟩ ∧
    (PackageIndex.mk ⟨1, 0, 0⟩ [⟨⟨2, 0, 0⟩⟩, ⟨⟨1, 0, 0⟩⟩]).entries.head? =
      some ⟨⟨2, 0, 0⟩⟩ ∧
    (PackageEntry.mk ⟨1, 0, 0⟩) ≠ (PackageEntry.mk ⟨2, 0, 0⟩) :=
  ⟨rfl, rfl, by decide⟩

/-- C3 (amended): `resolve(Latest)` takes the first index entry
unconditionally for Node only; for Yarn it parses the body of the
latest-version endpoint, and for packages it selects the first entry whose
version equals the latest marker of the metadata. -/
theorem c3_latest_per_kind :
    (∀ (env : NodeEnv) (fs : NodeCacheFiles) (now : Nat)
        (hooks : Option ToolHooks) (idx : NodeIndex) (fs1 : NodeCacheFiles)
        (fetched : List String),
      resolve_node_versions env fs now (node_latest_url hooks) =
        (.ok idx, fs1, fetched) →
      node_resolve env fs now .latest hooks =
        ((match idx.entries with
          | [] => .error (.nodeVersionNotFound "latest")
          | entry :: _ => .ok entry.version), fs1, fetched)) ∧
    (∀ (env : YarnEnv) (hooks : Option ToolHooks) (body : String),
      env.netText (yarn_latest_url hooks) = some body →
      yarn_resolve env .latest hooks =
        ((match env.parseVersion body with
          | some version => .ok version
          | none => .error .unknown), [yarn_latest_url hooks])) ∧
    (∀ (env : PackageEnv) (name : String) (hooks : Option ToolHooks)
        (idx : PackageIndex),
      env.net (package_latest_url hooks name) = some idx →
      package_resolve env name .latest hooks =
        ((match idx.entries.find? (fun e => e.version == idx.latest) with
          | some entry => .ok entry
          | none => .error (.packageVersionNotFound name "latest")),
          [package_latest_url hooks name])) := by
  refine ⟨?_, ?_, ?_⟩
  · intro env fs now hooks idx fs1 fetched h
    show node_resolve_latest env fs now hooks = _
    unfold node_resolve_latest match_node_version
    rw [h]
    dsimp only
    cases he : idx.entries with
    | nil => rfl
    | cons entry rest => rfl
  · intro env hooks body h
    show yarn_resolve_latest env hooks = _
    unfold yarn_resolve_latest
    dsimp only
    rw [h]
    dsimp only
    cases hp : env.parseVersion body with
    | none => rfl
    | some version => rfl
  · intro env name hooks idx h
    show package_resolve_latest env name hooks = _
    unfold package_resolve_latest
    dsimp only
    rw [h]
    dsimp only
    unfold match_package_entry
    cases hf : idx.entries.find? (fun e => e.version == idx.latest) with
    | none => rfl
    | some entry => rfl

/-- Witness for C3 (amended): Node takes the first entry of a concrete
cached index. -/
theorem c3_witness :
    node_resolve
        ⟨fun _ => some 100,
          fun _ => some (some ⟨[⟨⟨20, 0, 0⟩, ⟨9, 0, 0⟩, ⟨[]⟩, false⟩,
            ⟨⟨18, 19, 0⟩, ⟨9, 0, 0⟩, ⟨[]⟩, true⟩]⟩),
          fun _ => none, fun _ => "", fun _ => none⟩
        ⟨some "expiry-date", some "cached-body"⟩ 0 .latest none =
      (.ok (Version.mk 20 0 0), ⟨some "expiry-date", some "cached-body"⟩,
        []) := by
  rw [c3_latest_per_kind.1
      ⟨fun _ => some 100,
        fun _ => some (some ⟨[⟨⟨20, 0, 0⟩, ⟨9, 0, 0⟩, ⟨[]⟩, false⟩,
          ⟨⟨18, 19, 0⟩, ⟨9, 0, 0⟩, ⟨[]⟩, true⟩]⟩),
        fun _ => none, fun _ => "", fun _ => none⟩
      ⟨some "expiry-date", some "cached-body"⟩ 0 none
      ⟨[⟨⟨20, 0, 0⟩, ⟨9, 0, 0⟩, ⟨[]⟩, false⟩,
        ⟨⟨18, 19, 0⟩, ⟨9, 0, 0⟩, ⟨[]⟩, true⟩]⟩
      ⟨some "expiry-date", some "cached-body"⟩ [] rfl]

/-- C1 counterexample: for packages, `resolve_exact` does perform network
access — it fetches the metadata URL (chosen through the `index` hook when
one is present) and can fail — rather than returning the version verbatim
without network or hooks. -/
theorem c1_counterexample :
    (package_resolve_exact ⟨fun _ => none⟩ "left-pad" ⟨1, 0, 0⟩ none).2 =
      ["https://registry.npmjs.org/left-pad"] ∧
    (package_resolve_exact ⟨fun _ => none⟩ "left-pad" ⟨1, 0, 0⟩ none).1 =
      .error (.packageMetadataFetchError
        "https://registry.npmjs.org/left-pad") ∧
    (package_resolve_exact ⟨fun _ => none⟩ "left-pad" ⟨1, 0, 0⟩
        (some ⟨none, some fun n => "https://mirror.example/" ++ n⟩)).2 =
      ["https://mirror.example/left-pad"] :=
  ⟨rfl, rfl, rfl⟩

/-- C1 (amended): `resolve(Exact(v))` performs no network access, consults
no hooks, and returns v verbatim for Node and Yarn; for packages it
performs exactly one metadata fetch at the hook-resolved URL and returns
the first index entry whose version equals v, or a typed not-found error
carrying the textual form of v. -/
theorem c1_exact_resolution :
    (∀ (env : NodeEnv) (fs : NodeCacheFiles) (now : Nat) (v : Version)
        (hooks : Option ToolHooks),
      node_resolve env fs now (.exact v) hooks = (.ok v, fs, [])) ∧
    (∀ (env : YarnEnv) (v : Version) (hooks : Option ToolHooks),
      yarn_resolve env (.exact v) hooks = (.ok v, [])) ∧
    (∀ (env : PackageEnv) (name : String) (v : Version)
        (hooks : Option ToolHooks),
      (package_resolve env name (.exact v) hooks).2 =
        [package_index_url hooks name]) ∧
    (∀ (env : PackageEnv) (name : String) (v : Version)
        (hooks : Option ToolHooks) (idx : PackageIndex),
      env.net (package_index_url hooks name) = some idx →
      (∀ entry, (package_resolve env name (.exact v) hooks).1 = .ok entry →
        entry ∈ idx.entries ∧ entry.version = v) ∧
      (idx.entries.find? (fun e => e.version == v) = none →
        (package_resolve env name (.exact v) hooks).1 =
          .error (.packageVersionNotFound name v.toText))) := by
  refine ⟨fun env fs now v hooks => rfl, fun env v hooks => rfl, ?_, ?_⟩
  · intro env name v hooks
    show (package_resolve_exact env name v hooks).2 = _
    unfold package_resolve_exact
    dsimp only
    split
    · rfl
    · unfold match_package_entry
      split
      · rfl
      · rfl
  · intro env name v hooks idx h
    constructor
    · intro entry he
      have he2 : (package_resolve_exact env name v hooks).1 = .ok entry := he
      unfold package_resolve_exact at he2
      dsimp only at he2
      rw [h] at he2
      dsimp only at he2
      unfold match_package_entry at he2
      cases hf : idx.entries.find? (fun e => e.version == v) with
      | none =>
        rw [hf] at he2
        exact Except.noConfusion he2
      | some found =>
        rw [hf] at he2
        injection he2 with he3
        subst he3
        refine ⟨List.mem_of_find?_eq_some hf, ?_⟩
        have := List.find?_some hf
        simpa using this
    · intro hnone
      show (package_resolve_exact env name v hooks).1 = _
      unfold package_resolve_exact
      dsimp only
      rw [h]
      dsimp only
      unfold match_package_entry
      rw [hnone]

/-- Witness for C1 (amended): with metadata lacking the requested version,
package exact resolution fails with the typed not-found error. -/
theorem c1_witness :
    (package_resolve_exact ⟨fun _ => some ⟨⟨2, 0, 0⟩, [⟨⟨2, 0, 0⟩⟩]⟩⟩
        "left-pad" ⟨1, 0, 0⟩ none).1 =
      .error (.packageVersionNotFound "left-pad" "1.0.0") := by
  have h := (c1_exact_resolution.2.2.2
      ⟨fun _ => some ⟨⟨2, 0, 0⟩, [⟨⟨2, 0, 0⟩⟩]⟩⟩ "left-pad" ⟨1, 0, 0⟩ none
      ⟨⟨2, 0, 0⟩, [⟨⟨2, 0, 0⟩⟩]⟩ rfl).2 (by decide)
  exact h.trans (by rfl)

/-! ## Collection fetch claim -/

/-- C8: for each tool kind, `Collection::fetch` performs resolution first
(a resolution failure propagates regardless of what is already in the
collection); on `Fetched::Already` the version set is unchanged, on
`Fetched::Now` the fetched version is inserted; the `Fetched` value is
returned unchanged in both cases. -/
theorem c8_collection_fetch :
    (∀ (versions : Finset Version)
        (resolveResult : Except Error (DistroHandle NodeVersion))
        (distroFetch : DistroHandle NodeVersion → Finset Version →
          Except Error (Fetched NodeVersion)),
      (∀ e, resolveResult = .error e →
        node_collection_fetch versions resolveResult distroFetch =
          (.error e, versions)) ∧
      (∀ d, resolveResult = .ok d →
        (∀ v, distroFetch d versions = .ok (.already v) →
          node_collection_fetch versions resolveResult distroFetch =
            (.ok (.already v), versions)) ∧
        (∀ v, distroFetch d versions = .ok (.now v) →
          node_collection_fetch versions resolveResult distroFetch =
            (.ok (.now v), insert v.runtime versions)))) ∧
    (∀ (versions : Finset Version)
        (resolveResult : Except Error (DistroHandle Version))
        (distroFetch : DistroHandle Version → Finset Version →
          Except Error (Fetched Version)),
      (∀ e, resolveResult = .error e →
        yarn_collection_fetch versions resolveResult distroFetch =
          (.error e, versions)) ∧
      (∀ d, resolveResult = .ok d →
        (∀ v, distroFetch d versions = .ok (.already v) →
          yarn_collection_fetch versions resolveResult distroFetch =
            (.ok (.already v), versions)) ∧
        (∀ v, distroFetch d versions = .ok (.now v) →
          yarn_collection_fetch versions resolveResult distroFetch =
            (.ok (.now v), insert v versions)))) ∧
    (∀ (versions : Finset Version)
        (resolveResult : Except Error (DistroHandle PackageVersion))
        (distroFetch : DistroHandle PackageVersion → Finset Version →
          Except Error (Fetched PackageVersion)),
      (∀ e, resolveResult = .error e →
        package_collection_fetch versions resolveResult distroFetch =
          (.error e, versions)) ∧
      (∀ d, resolveResult = .ok d →
        (∀ v, distroFetch d versions = .ok (.already v) →
          package_collection_fetch versions resolveResult distroFetch =
            (.ok (.already v), versions)) ∧
        (∀ v, distroFetch d versions = .ok (.now v) →
          package_collection_fetch versions resolveResult distroFetch =
            (.ok (.now v), insert v.version versions)))) := by
  refine ⟨?_, ?_, ?_⟩ <;>
  · intro versions resolveResult distroFetch
    refine ⟨?_, ?_⟩
    · intro e he
      subst he
      rfl
    · intro d hd
      subst hd
      refine ⟨?_, ?_⟩ <;>
      · intro v hv
        simp only [node_collection_fetch, yarn_collection_fetch,
          package_collection_fetch]
        rw [hv]

/-- Witness for C8: an already-installed fetch leaves the version set
unchanged and returns the Already outcome. -/
theorem c8_witness :
    node_collection_fetch (∅ : Finset Version)
        (.ok ⟨⟨⟨10, 0, 0⟩, ⟨6, 0, 0⟩⟩⟩)
        (fun _ _ => .ok (.already ⟨⟨10, 0, 0⟩, ⟨6, 0, 0⟩⟩)) =
      (.ok (.already ⟨⟨10, 0, 0⟩, ⟨6, 0, 0⟩⟩), (∅ : Finset Version)) :=
  ((c8_collection_fetch.1 ∅ (.ok ⟨⟨⟨10, 0, 0⟩, ⟨6, 0, 0⟩⟩⟩)
      (fun _ _ => .ok (.already ⟨⟨10, 0, 0⟩, ⟨6, 0, 0⟩⟩))).2
    ⟨⟨⟨10, 0, 0⟩, ⟨6, 0, 0⟩⟩⟩ rfl).1 ⟨⟨10, 0, 0⟩, ⟨6, 0, 0⟩⟩ rfl

/-- Witness for C9 at a concrete argument vector that would otherwise be
intercepted. -/
theorem c9_witness :
    npm_command (.ok none) true
        [OsStr.utf8 "npm", OsStr.utf8 "-g", OsStr.utf8 "install",
          OsStr.utf8 "left-pad"] =
      .ok (.passthrough "npm" .noPlatform) :=
  (c9_no_platform_passthrough true
      [OsStr.utf8 "npm", OsStr.utf8 "-g", OsStr.utf8 "install",
        OsStr.utf8 "left-pad"]).1
